import Mathlib

/-!
# Verification of the GGUF vision-encoder loader and embedding utilities

Shallow embedding of the C++ sources (siglip, dinov2, evaclip, nomic vision
encoders).  Byte streams are modelled as `List Nat` (each entry one byte),
file positions as natural numbers, C `float` arithmetic as real arithmetic,
raw float buffers as functions `Nat → ℝ`.
-/

namespace Spec2Proof

open Finset

/-! ## Byte-level GGUF metadata model (src/siglip/siglip_gguf.cpp, siglip_core.cpp)

`static const size_t type_sizes[] = {1,1,2,2,4,4,4,1,0,0,8,8,8};`
Type tags: 0 u8, 1 i8, 2 u16, 3 i16, 4 u32, 5 i32, 6 f32, 7 bool,
8 string, 9 array, 10 u64, 11 i64, 12 f64. -/

def typeSizes : List Nat := [1, 1, 2, 2, 4, 4, 4, 1, 0, 0, 8, 8, 8]

/-- Little-endian value of a byte list (base 256). -/
def leNat : List Nat → Nat
  | [] => 0
  | b :: bs => b + 256 * leNat bs

/-- `w`-byte little-endian encoding of `n`. -/
def natToLE : Nat → Nat → List Nat
  | _, 0 => []
  | n, w + 1 => n % 256 :: natToLE (n / 256) w

/-- A GGUF metadata value, as it sits serialized in the archive:
a fixed-width scalar (tags 0-7, 10-12), a length-prefixed string (tag 8),
or an array (tag 9: 4-byte element tag, 8-byte length, then the elements). -/
inductive GVal where
  | fixedV (tag : Nat) (bytes : List Nat)
  | strV (data : List Nat)
  | arrV (elemTag : Nat) (elems : List GVal)

/-- The type tag a value is declared with. -/
def GVal.tagOf : GVal → Nat
  | .fixedV t _ => t
  | .strV _ => 8
  | .arrV _ _ => 9

mutual

/-- Serialized bytes of a metadata value (the exact on-disk layout). -/
def serializeGVal : GVal → List Nat
  | .fixedV _ b => b
  | .strV d => natToLE d.length 8 ++ d
  | .arrV t es => natToLE t 4 ++ natToLE es.length 8 ++ serializeGList es

/-- Serialized bytes of a list of array elements, in order. -/
def serializeGList : List GVal → List Nat
  | [] => []
  | v :: vs => serializeGVal v ++ serializeGList vs

end

mutual

/-- Array-nesting depth of a value. -/
def GVal.depth : GVal → Nat
  | .fixedV _ _ => 0
  | .strV _ => 0
  | .arrV _ es => GVal.depthList es + 1

/-- Maximum depth over a list of values. -/
def GVal.depthList : List GVal → Nat
  | [] => 0
  | v :: vs => max v.depth (GVal.depthList vs)

end

mutual

/-- Well-formedness of a serialized metadata value: fixed values have a
scalar tag and exactly the table-declared byte count, string and array
lengths fit their 8-byte length fields, array elements all carry the
declared element tag. -/
def GVal.wf : GVal → Prop
  | .fixedV t b => t < 13 ∧ t ≠ 8 ∧ t ≠ 9 ∧ b.length = typeSizes.getD t 0
  | .strV d => d.length < 256 ^ 8
  | .arrV t es => t < 256 ^ 4 ∧ es.length < 256 ^ 8 ∧ GVal.wfList t es

/-- All elements have tag `t` and are well-formed. -/
def GVal.wfList : Nat → List GVal → Prop
  | _, [] => True
  | t, v :: vs => v.tagOf = t ∧ v.wf ∧ GVal.wfList t vs

end

/-- `gguf_skip_metadata_value` (src/siglip/siglip_gguf.cpp:115-141), on a byte
stream.  Strings: read the 8-byte length, then drop that many bytes.  Arrays:
read the 4-byte element tag and the 8-byte length, then recursively skip that
many elements of the element type.  Other tags below 13: drop
`type_sizes[tag]` bytes.  Tags 13 and up: the function returns false having
consumed nothing.  `fread` on a short stream consumes whatever remains, which
`List.drop` models.  The C recursion nests one level per array level; `fuel`
bounds that nesting depth. -/
def gguf_skip_metadata_value : Nat → Nat → List Nat → List Nat
  | 0, t, s =>
    if t = 8 then (s.drop 8).drop (leNat (s.take 8))
    else if t = 9 then s
    else if t < 13 then s.drop (typeSizes.getD t 0)
    else s
  | fuel + 1, t, s =>
    if t = 8 then (s.drop 8).drop (leNat (s.take 8))
    else if t = 9 then
      (List.range (leNat ((s.drop 4).take 8))).foldl
        (fun st _ => gguf_skip_metadata_value fuel (leNat (s.take 4)) st)
        ((s.drop 4).drop 8)
    else if t < 13 then s.drop (typeSizes.getD t 0)
    else s

/-- The inline unknown-key skip of the model-load metadata loop
(src/siglip/siglip_core.cpp:533-544 and the identical copy in
src/siglip/siglip.cpp): strings are skipped via `read_gguf_string`; every
other tag up to `GGUF_TYPE_FLOAT64` reads `sizes[type]` bytes — including
tag 9 (array), whose table entry is 0, so nothing of an array value is
consumed. -/
def siglip_metadata_loop_skip (t : Nat) (s : List Nat) : List Nat :=
  if t = 8 then
    (s.drop 8).drop (leNat (s.take 8))
  else if t ≤ 12 then
    if t < 13 then s.drop (typeSizes.getD t 0) else s
  else s

/-! ## Data-section alignment (src/siglip/siglip_gguf.cpp:261-265,
src/siglip/siglip_core.cpp:291-296) -/

/-- `gguf_get_data_start`: round the current position up to the next
`alignment`-byte boundary (`pos + (alignment - pos % alignment) % alignment`).
The same formula is inlined in `load_model_tensors`. -/
def gguf_get_data_start (pos alignment : Nat) : Nat :=
  pos + (alignment - pos % alignment) % alignment

/-! ## Structured model of `siglip_load_model_with_progress`
(src/siglip/siglip_core.cpp:406-583; src/siglip/siglip.cpp has an identical
copy).  At this level an archive is already split into header fields, typed
metadata pairs and named tensor descriptors; byte-level stream advancement is
the concern of the byte-level model above. -/

/-- A metadata value as the load loop consumes it: an integer scalar
(read through `read_gguf_metadata_value` into an `int64_t`), a string, or a
float array (`siglip.image_mean` / `siglip.image_std` layout). -/
inductive MVal where
  | mint (v : Int)
  | mstr (s : String)
  | marr (l : List Rat)

/-- Whether a metadata value is an integer scalar. -/
def MVal.isInt : MVal → Bool
  | .mint _ => true
  | _ => false

/-- `static_cast<int>` of an `int64_t`: two's-complement wrap to 32 bits. -/
def toInt32 (v : Int) : Int :=
  (v + 2 ^ 31) % 2 ^ 32 - 2 ^ 31

/-- `siglip_model_type` (decided from `hidden_size` after the metadata
loop). -/
inductive SiglipModelType where
  | vit_b_16
  | vit_l_16
  | vit_so400m
deriving DecidableEq

/-- The hyperparameter block of `siglip_hparams`, including the nested
preprocessing parameters the metadata loop writes to. -/
structure SiglipHparams where
  hidden_size : Int
  intermediate_size : Int
  num_attention_heads : Int
  num_hidden_layers : Int
  image_size : Int
  patch_size : Int
  num_patches : Int
  target_size : Int
  mean : List Rat
  std : List Rat
deriving DecidableEq

/-- The defaults installed before the metadata loop
(src/siglip/siglip_core.cpp:448-467). -/
def siglip_default_hparams : SiglipHparams :=
  { hidden_size := 768
    intermediate_size := 3072
    num_attention_heads := 12
    num_hidden_layers := 12
    image_size := 224
    patch_size := 16
    num_patches := 196
    target_size := 224
    mean := [1/2, 1/2, 1/2]
    std := [1/2, 1/2, 1/2] }

/-- Overwrite the first `min 3 l.length` entries of a length-3 list with `l`
(the `for (j < arr_len && j < 3)` loops of the image_mean/image_std cases). -/
def overwriteUpTo3 (old : List Rat) (l : List Rat) : List Rat :=
  (List.range old.length).map fun j => if h : j < l.length then l.get ⟨j, h⟩ else old.getD j 0

/-- One iteration of the metadata loop: recognized keys overwrite their
hyperparameter field (integer values pass through `static_cast<int>`),
`siglip.image_size` also sets the preprocessing target size, the two array
keys overwrite up to three mean/std entries, everything else is skipped.
An integer-typed field is only written when the entry's value is an integer
scalar; for any other declared type the C code's raw read into an `int64_t`
is undefined, and the model leaves the field unchanged. -/
def siglip_apply_metadata (hp : SiglipHparams) (k : String) (v : MVal) : SiglipHparams :=
  if k = "general.architecture" then hp
  else if k = "general.name" then hp
  else if k = "siglip.hidden_size" then
    match v with | .mint z => { hp with hidden_size := toInt32 z } | _ => hp
  else if k = "siglip.num_attention_heads" then
    match v with | .mint z => { hp with num_attention_heads := toInt32 z } | _ => hp
  else if k = "siglip.num_hidden_layers" then
    match v with | .mint z => { hp with num_hidden_layers := toInt32 z } | _ => hp
  else if k = "siglip.intermediate_size" then
    match v with | .mint z => { hp with intermediate_size := toInt32 z } | _ => hp
  else if k = "siglip.image_size" then
    match v with
    | .mint z => { hp with image_size := toInt32 z, target_size := toInt32 z }
    | _ => hp
  else if k = "siglip.patch_size" then
    match v with | .mint z => { hp with patch_size := toInt32 z } | _ => hp
  else if k = "siglip.num_patches" then
    match v with | .mint z => { hp with num_patches := toInt32 z } | _ => hp
  else if k = "siglip.image_mean" then
    match v with | .marr l => { hp with mean := overwriteUpTo3 hp.mean l } | _ => hp
  else if k = "siglip.image_std" then
    match v with | .marr l => { hp with std := overwriteUpTo3 hp.std l } | _ => hp
  else hp

/-- The whole metadata loop, starting from the defaults. -/
def siglip_resolve_metadata (kvs : List (String × MVal)) : SiglipHparams :=
  kvs.foldl (fun hp kv => siglip_apply_metadata hp kv.1 kv.2) siglip_default_hparams

/-- Amended-claim reference value for C2, following the corrected spec words:
after resolution `num_patches` equals the last metadata-declared
`siglip.num_patches` value (cast to 32-bit int), or the default 196 when the
key never appears with an integer value; it is never recomputed from
`image_size` and `patch_size`. -/
def siglip_spec_num_patches (kvs : List (String × MVal)) : Int :=
  kvs.foldl (fun acc kv =>
    if kv.1 = "siglip.num_patches" then
      match kv.2 with
      | .mint z => toInt32 z
      | _ => acc
    else acc) 196

/-- Model-type decision after the loop (src/siglip/siglip_core.cpp:553-559). -/
def siglip_model_type_of (hiddenSize : Int) : SiglipModelType :=
  if hiddenSize ≤ 768 then .vit_b_16
  else if hiddenSize ≤ 1024 then .vit_l_16
  else .vit_so400m

/-! ## Tensor binding (src/siglip/siglip_core.cpp:324-377,
src/siglip/siglip_gguf.cpp:338-376).  Tensors are referenced by an abstract
identifier (`Nat`); the bound slots mirror the `ctx->tensors` struct. -/

/-- Per-layer weight slots of a transformer block. -/
structure SiglipBlock where
  attn_q_weight : Option Nat := none
  attn_q_bias : Option Nat := none
  attn_k_weight : Option Nat := none
  attn_k_bias : Option Nat := none
  attn_v_weight : Option Nat := none
  attn_v_bias : Option Nat := none
  attn_out_weight : Option Nat := none
  attn_out_bias : Option Nat := none
  mlp_fc1_weight : Option Nat := none
  mlp_fc1_bias : Option Nat := none
  mlp_fc2_weight : Option Nat := none
  mlp_fc2_bias : Option Nat := none
  ln1_weight : Option Nat := none
  ln1_bias : Option Nat := none
  ln2_weight : Option Nat := none
  ln2_bias : Option Nat := none
deriving DecidableEq

/-- Top-level weight slots plus the per-layer blocks. -/
structure SiglipTensors where
  patch_embed_weight : Option Nat := none
  patch_embed_bias : Option Nat := none
  pos_embed : Option Nat := none
  norm_weight : Option Nat := none
  norm_bias : Option Nat := none
  head_weight : Option Nat := none
  head_bias : Option Nat := none
  blocks : List SiglipBlock := []
deriving DecidableEq

/-- First index `≥ start` of `'.'` in the name (`name.find('.', 14)`). -/
def findDotFrom (s : String) (start : Nat) : Option Nat :=
  ((s.data.drop start).findIdx? (· = '.')).map (· + start)

/-- `name.substr(a, len)`. -/
def substrOf (s : String) (a len : Nat) : String :=
  String.mk ((s.data.drop a).take len)

/-- `name.substr(a)` to the end. -/
def substrFrom (s : String) (a : Nat) : String :=
  String.mk (s.data.drop a)

/-- Leading-digit parse of `std::stoi`: an optional sign followed by at least
one decimal digit; trailing non-digits are ignored.  `none` models the
exception `std::stoi` raises when no digits are present.  (Leading
whitespace and overflow clamping are not exercised by these names.) -/
def stoiPrefixDigits (cs : List Char) : Option Nat :=
  let ds := cs.takeWhile (·.isDigit)
  if ds.isEmpty then none
  else some (ds.foldl (fun a c => a * 10 + (c.toNat - 48)) 0)

/-- `std::stoi` on the layer-index substring. -/
def stoiOf (s : String) : Option Int :=
  match s.data with
  | '-' :: rest => (stoiPrefixDigits rest).map (fun n => -(n : Int))
  | '+' :: rest => (stoiPrefixDigits rest).map (fun n => (n : Int))
  | cs => (stoiPrefixDigits cs).map (fun n => (n : Int))

/-- `name.find("siglip.blocks.") == 0`. -/
def siglipBlocksStart (s : String) : Bool :=
  s.data.take 14 = "siglip.blocks.".data

/-- Bind one component tensor into a block by its dotted component name. -/
def siglip_bind_component (b : SiglipBlock) (comp : String) (t : Nat) : SiglipBlock :=
  if comp = "attn.q.weight" then { b with attn_q_weight := some t }
  else if comp = "attn.q.bias" then { b with attn_q_bias := some t }
  else if comp = "attn.k.weight" then { b with attn_k_weight := some t }
  else if comp = "attn.k.bias" then { b with attn_k_bias := some t }
  else if comp = "attn.v.weight" then { b with attn_v_weight := some t }
  else if comp = "attn.v.bias" then { b with attn_v_bias := some t }
  else if comp = "attn.out.weight" then { b with attn_out_weight := some t }
  else if comp = "attn.out.bias" then { b with attn_out_bias := some t }
  else if comp = "mlp.fc1.weight" then { b with mlp_fc1_weight := some t }
  else if comp = "mlp.fc1.bias" then { b with mlp_fc1_bias := some t }
  else if comp = "mlp.fc2.weight" then { b with mlp_fc2_weight := some t }
  else if comp = "mlp.fc2.bias" then { b with mlp_fc2_bias := some t }
  else if comp = "ln1.weight" then { b with ln1_weight := some t }
  else if comp = "ln1.bias" then { b with ln1_bias := some t }
  else if comp = "ln2.weight" then { b with ln2_weight := some t }
  else if comp = "ln2.bias" then { b with ln2_bias := some t }
  else b

/-- Bind one named tensor into the weight structure: top-level names match
exactly; names beginning `siglip.blocks.` are split at the next dot, the
layer index parsed with `std::stoi` and bounds-checked against
`num_hidden_layers`; an out-of-range index binds nothing and raises no
error.  All other names bind nothing. -/
def siglip_bind_one (numLayers : Int) (st : SiglipTensors) (name : String) (t : Nat) :
    SiglipTensors :=
  if name = "siglip.patch_embed.weight" then { st with patch_embed_weight := some t }
  else if name = "siglip.patch_embed.bias" then { st with patch_embed_bias := some t }
  else if name = "siglip.pos_embed" then { st with pos_embed := some t }
  else if name = "siglip.norm.weight" then { st with norm_weight := some t }
  else if name = "siglip.norm.bias" then { st with norm_bias := some t }
  else if name = "siglip.head.weight" then { st with head_weight := some t }
  else if name = "siglip.head.bias" then { st with head_bias := some t }
  else if siglipBlocksStart name then
    match findDotFrom name 14 with
    | none => st
    | some dot1 =>
      match stoiOf (substrOf name 14 (dot1 - 14)) with
      | none => st
      | some idx =>
        if 0 ≤ idx ∧ idx < numLayers then
          let b := siglip_bind_component (st.blocks.getD idx.toNat {}) (substrFrom name (dot1 + 1)) t
          { st with blocks := st.blocks.set idx.toNat b }
        else st
  else st

/-- The binding pass of `load_model_tensors`: blocks resized to
`num_hidden_layers`, then every descriptor bound in order. -/
def siglip_bind_tensors (numLayers : Int) (infos : List (String × Nat)) : SiglipTensors :=
  infos.foldl (fun st nt => siglip_bind_one numLayers st nt.1 nt.2)
    { blocks := List.replicate numLayers.toNat {} }

/-! ## The structured load function itself -/

/-- `GGUF_MAGIC` (0x46554747, "GGUF"). -/
def GGUF_MAGIC : Nat := 0x46554747

/-- An archive after parsing into fields: header, metadata pairs, tensor
descriptors (name and abstract tensor identifier). -/
structure GGUFFile where
  magic : Nat
  version : Nat
  kvs : List (String × MVal)
  tensors : List (String × Nat)

/-- Loaded context: resolved hyperparameters, decided model type, bound
tensors, and whether the version warning was logged. -/
structure SiglipCtx where
  hparams : SiglipHparams
  model_type : SiglipModelType
  tensors : SiglipTensors
  warned_version : Bool
deriving DecidableEq

/-- `siglip_load_model_with_progress` on a structured archive: a wrong magic
aborts the load; a version outside 2..3 only logs a warning; the metadata
loop resolves the hyperparameters, the model type is decided from
`hidden_size`, and the tensors are bound.  (Byte-level read failures during
tensor loading are below this model's level of abstraction.) -/
def siglip_load_model (f : GGUFFile) : Option SiglipCtx :=
  if f.magic ≠ GGUF_MAGIC then none
  else
    let hp := siglip_resolve_metadata f.kvs
    some { hparams := hp
           model_type := siglip_model_type_of hp.hidden_size
           tensors := siglip_bind_tensors hp.num_hidden_layers f.tensors
           warned_version := decide (f.version < 2 ∨ 3 < f.version) }

/-! ## Embedding utilities (src/siglip/siglip_inference.cpp:355-401,
src/vision/dinov2/dinov2_inference.cpp:142-152,
src/vision/evaclip/evaclip_inference.cpp:147-157,
src/vision/nomic_cpp/nomic_inference.cpp:370-391).
`float` arithmetic is modelled over ℝ; a raw `float*` of `n` elements is a
function `Nat → ℝ` read at indices below `n`. -/

/-- The accumulated `a[i]*b[i]` loop. -/
noncomputable def dotProd (n : Nat) (a b : Nat → ℝ) : ℝ :=
  ∑ i ∈ Finset.range n, a i * b i

/-- The accumulated `a[i]*a[i]` loop (the squared L2 norm before `sqrtf`). -/
noncomputable def normSq (n : Nat) (a : Nat → ℝ) : ℝ :=
  ∑ i ∈ Finset.range n, a i * a i

/-- `siglip_cosine_similarity_raw` (src/siglip/siglip_inference.cpp:355-368):
one loop accumulates the dot product and the two squared norms; if either
squared norm is exactly zero the function returns 0.0, else
`dot / (sqrtf(norm_a) * sqrtf(norm_b))`. -/
noncomputable def siglip_cosine_similarity_raw (a b : Nat → ℝ) (n : Nat) : ℝ :=
  if normSq n a = 0 ∨ normSq n b = 0 then 0
  else dotProd n a b / (Real.sqrt (normSq n a) * Real.sqrt (normSq n b))

/-- `cosine_similarity` of the nomic variant
(src/vision/nomic_cpp/nomic_inference.cpp:382-391), same computation. -/
noncomputable def nomic_cosine_similarity (a b : Nat → ℝ) (n : Nat) : ℝ :=
  if normSq n a = 0 ∨ normSq n b = 0 then 0
  else dotProd n a b / (Real.sqrt (normSq n a) * Real.sqrt (normSq n b))

/-- `siglip_normalize_raw` (src/siglip/siglip_inference.cpp:387-401):
`norm = sqrtf(sum of squares)`; only when `norm > 0` is every element of the
first `n` divided by it. -/
noncomputable def siglip_normalize_raw (n : Nat) (f : Nat → ℝ) : Nat → ℝ :=
  if 0 < Real.sqrt (normSq n f) then
    fun i => if i < n then f i / Real.sqrt (normSq n f) else f i
  else f

/-- The `1e-12f` stabilizer of the dinov2/evaclip/nomic normalizers. -/
noncomputable def eps12 : ℝ := 1 / 10 ^ 12

/-- `normalize_embedding` of the dinov2 and evaclip variants (and
`nomic_normalize`): `norm = sqrtf(sum + 1e-12f)`, then every element of the
first `n` is divided by it, unconditionally. -/
noncomputable def dinov2_normalize_embedding (n : Nat) (f : Nat → ℝ) : Nat → ℝ :=
  fun i => if i < n then f i / Real.sqrt (normSq n f + eps12) else f i

/-- `siglip_embedding`: flat buffer plus dimensions and the normalization
flag.  `data = none` models a null `data` pointer. -/
structure SiglipEmbedding where
  size : Nat
  batch_size : Nat
  normalized : Bool
  data : Option (Nat → ℝ)

/-- `siglip_normalize` (src/siglip/siglip_inference.cpp:375-379): a null
embedding or a null data pointer returns unchanged; otherwise
`siglip_normalize_raw` runs over all `size * batch_size` elements and the
`normalized` flag is set. -/
noncomputable def siglip_normalize (emb : Option SiglipEmbedding) : Option SiglipEmbedding :=
  match emb with
  | none => none
  | some e =>
    match e.data with
    | none => some e
    | some f =>
      some { e with data := some (siglip_normalize_raw (e.size * e.batch_size) f)
                    normalized := true }

/-! ## Batch encoding (src/siglip/siglip_inference.cpp:288-317,
src/vision/evaclip/evaclip_inference.cpp:272-309).  The per-image single
encode is a parameter (`enc i` is the result for batch slot `i`: `some` a
buffer of `hidden` floats on success, `none` on failure), exactly as the
loops call `siglip_encode` / `evaclip_encode_image` per image. -/

/-- `memcpy`/`memset` of `n` floats at offset `off` into a buffer. -/
def writeSeq (buf : Nat → ℝ) (off n : Nat) (src : Nat → ℝ) : Nat → ℝ :=
  fun j => if off ≤ j ∧ j < off + n then src (j - off) else buf j

/-- `siglip_encode_batch`: rejects an empty batch, allocates
`hidden * n` floats (`init` models the uninitialized allocation), then per
image copies the single-encode result into slot `i` or zero-fills the slot
on failure. -/
def siglip_encode_batch (hidden : Nat) (enc : Nat → Option (Nat → ℝ)) (n : Nat)
    (init : Nat → ℝ) : Option SiglipEmbedding :=
  if n = 0 then none
  else
    some { size := hidden
           batch_size := n
           normalized := false
           data := some ((List.range n).foldl (fun buf i =>
             match enc i with
             | some e => writeSeq buf (i * hidden) hidden e
             | none => writeSeq buf (i * hidden) hidden (fun _ => 0)) init) }

/-- `evaclip_encode_batch`: writes into the caller's buffer at stride
`dim = embedding_dim`; a failed image zero-fills `hidden_size` floats of its
slot; the loop always runs to completion and the call returns 0. -/
def evaclip_encode_batch (hidden dim n : Nat) (enc : Nat → Option (Nat → ℝ))
    (buf : Nat → ℝ) : (Nat → ℝ) × Int :=
  ((List.range n).foldl (fun b i =>
      match enc i with
      | some e => writeSeq b (i * dim) hidden e
      | none => writeSeq b (i * dim) hidden (fun _ => 0)) buf, 0)

/-! ## Encode entry points with their pre-compute validation
(src/vision/dinov2/dinov2_inference.cpp:258-326,
src/vision/evaclip/evaclip_inference.cpp:201-266).  The result carries the
final output buffer, the return code, and the last-error string set on the
failure paths. -/

/-- `dinov2_output_mode`. -/
inductive Dinov2OutputMode where
  | cls
  | patches
  | mean
deriving DecidableEq

/-- dinov2 hyperparameters used by `dinov2_encode`. -/
structure Dinov2Hparams where
  hidden_size : Nat
  num_patches : Nat
  image_size : Nat
  num_hidden_layers : Nat

/-- Required output elements per mode (hidden for CLS/MEAN, patches × hidden
for PATCHES). -/
def dinov2_required_size (hp : Dinov2Hparams) : Dinov2OutputMode → Nat
  | .cls => hp.hidden_size
  | .mean => hp.hidden_size
  | .patches => hp.num_patches * hp.hidden_size

/-- The deterministic placeholder the dinov2 forward pass writes
(`0.01f * ((i % 100) - 50) / 50.0f`, with `i = p + h` in PATCHES mode). -/
noncomputable def dinov2_forward_value (hp : Dinov2Hparams) :
    Dinov2OutputMode → Nat → ℝ
  | .cls, i => 0.01 * (((i % 100 : Nat) : ℝ) - 50) / 50
  | .mean, i => 0.01 * (((i % 100 : Nat) : ℝ) - 50) / 50
  | .patches, j =>
    0.01 * ((((j / hp.hidden_size + j % hp.hidden_size) % 100 : Nat) : ℝ) - 50) / 50

/-- Result of an encode call: final buffer contents, return code, last-error
string (`none` when no error was set). -/
structure EncodeResult where
  buf : Nat → ℝ
  ret : Int
  err : Option String

/-- `dinov2_encode`: compute the required size for the mode, fail with the
buffer-too-small error before anything is computed or written when
`max_dim` is short; then validate the raw image length as a square RGB
raster; then preprocess, run the forward pass into the output buffer, and
L2-normalize for CLS/MEAN. -/
noncomputable def dinov2_encode (hp : Dinov2Hparams) (imageLen : Nat) (buf : Nat → ℝ)
    (maxDim : Nat) (mode : Dinov2OutputMode) : EncodeResult :=
  let required := dinov2_required_size hp mode
  if maxDim < required then
    { buf := buf, ret := -1, err := some "Output-Buffer zu klein" }
  else
    let side := Nat.sqrt (imageLen / 3)
    if side * side * 3 ≠ imageLen then
      { buf := buf, ret := -1, err := some "Ungueltige Bildgroesse" }
    else
      let buf1 := writeSeq buf 0 required (dinov2_forward_value hp mode)
      match mode with
      | .patches => { buf := buf1, ret := required, err := none }
      | _ =>
        { buf := dinov2_normalize_embedding hp.hidden_size buf1
          ret := required, err := none }

/-- evaclip hyperparameters used by `evaclip_encode_image`. -/
structure EvaclipHparams where
  hidden_size : Nat
  num_patches : Nat
  image_size : Nat

/-- The deterministic placeholder the evaclip forward pass writes. -/
noncomputable def evaclip_forward_value : Nat → ℝ :=
  fun i => 0.01 * (((i % 100 : Nat) : ℝ) - 50) / 50

/-- `evaclip_encode_image`: empty image data fails first (-2); then a buffer
smaller than `hidden_size` fails with the buffer-too-small error (-5) before
anything is computed or written; then the square-RGB check (-3); then the
forward pass writes `hidden_size` floats and the CLIP L2 normalization
runs. -/
noncomputable def evaclip_encode_image (hp : EvaclipHparams) (imageSize : Nat)
    (buf : Nat → ℝ) (dim : Nat) : EncodeResult :=
  if imageSize = 0 then
    { buf := buf, ret := -2, err := some "NULL oder leere Bilddaten" }
  else if dim < hp.hidden_size then
    { buf := buf, ret := -5, err := some "Output-Buffer zu klein" }
  else
    let side := Nat.sqrt (imageSize / 3)
    if side * side * 3 ≠ imageSize then
      { buf := buf, ret := -3, err := some "Ungueltige Bildgroesse" }
    else
      let buf1 := writeSeq buf 0 hp.hidden_size evaclip_forward_value
      { buf := dinov2_normalize_embedding hp.hidden_size buf1, ret := 0, err := none }

/-! ## Concrete inputs used by the witness theorems -/

/-- A two-image batch in which image 0 encodes successfully and image 1
fails to decode. -/
noncomputable def encWitness : Nat → Option (Nat → ℝ) :=
  fun i => if i = 0 then some (fun k => (k : ℝ) + 1) else none

/-- An uninitialized allocation, modelled with arbitrary contents. -/
noncomputable def initWitness : Nat → ℝ :=
  fun _ => 42

/-- A vector with entries 1 at indices 0 and 2 and 0 elsewhere: two batched
size-2 embeddings `[1,0]` and `[1,0]`. -/
noncomputable def vecOneZero : Nat → ℝ :=
  fun i => if i = 0 ∨ i = 2 then 1 else 0

/-- The first standard basis vector. -/
noncomputable def vecE0 : Nat → ℝ :=
  fun i => if i = 0 then 1 else 0

/-- The second standard basis vector. -/
noncomputable def vecE1 : Nat → ℝ :=
  fun i => if i = 1 then 1 else 0

/-- An embedding whose data pointer is null. -/
def embNullData : SiglipEmbedding :=
  { size := 2, batch_size := 1, normalized := false, data := none }

/-- A batched embedding (two images of size 2) with non-null data. -/
noncomputable def embBatch2 : SiglipEmbedding :=
  { size := 2, batch_size := 2, normalized := false, data := some vecOneZero }

/-! ## Helper lemmas: little-endian encoding and the skip functions -/

theorem natToLE_length : ∀ (w n : Nat), (natToLE n w).length = w := by
  intro w
  induction w with
  | zero => intro n; rfl
  | succ w ih => intro n; simp [natToLE, ih]

theorem leNat_natToLE : ∀ (w n : Nat), n < 256 ^ w → leNat (natToLE n w) = n := by
  intro w
  induction w with
  | zero => intro n hn; interval_cases n; rfl
  | succ w ih =>
    intro n hn
    have hdiv : n / 256 < 256 ^ w := by
      rw [Nat.div_lt_iff_lt_mul (by norm_num)]
      calc n < 256 ^ (w + 1) := hn
        _ = 256 ^ w * 256 := by ring
    simp only [natToLE, leNat, ih _ hdiv]
    omega

theorem skip_fixed (fuel t : Nat) (b rest : List Nat) (h13 : t < 13) (h8 : t ≠ 8)
    (h9 : t ≠ 9) (hb : b.length = typeSizes.getD t 0) :
    gguf_skip_metadata_value fuel t (b ++ rest) = rest := by
  cases fuel <;>
    simp only [gguf_skip_metadata_value, if_neg h8, if_neg h9, if_pos h13] <;>
    exact List.drop_left' hb

theorem skip_str (fuel : Nat) (d rest : List Nat) (hd : d.length < 256 ^ 8) :
    gguf_skip_metadata_value fuel 8 ((natToLE d.length 8 ++ d) ++ rest) = rest := by
  cases fuel <;>
  · simp only [gguf_skip_metadata_value, List.append_assoc]
    rw [List.take_left' (natToLE_length 8 d.length), List.drop_left' (natToLE_length 8 d.length),
      leNat_natToLE 8 d.length hd, List.drop_left]
    simp

theorem foldl_const_iterate {α : Type} (g : α → α) :
    ∀ (m : Nat) (s : α), (List.range m).foldl (fun st _ => g st) s = g^[m] s := by
  intro m
  induction m with
  | zero => intro s; rfl
  | succ m ih =>
    intro s
    rw [List.range_succ, List.foldl_append, ih, Function.iterate_succ_apply']
    rfl

theorem skip_list_aux (fuel t : Nat)
    (IH : ∀ (v : GVal) (rest : List Nat), v.wf → v.depth < fuel →
      gguf_skip_metadata_value fuel v.tagOf (serializeGVal v ++ rest) = rest) :
    ∀ (es : List GVal) (rest : List Nat), GVal.wfList t es → GVal.depthList es < fuel →
      (gguf_skip_metadata_value fuel t)^[es.length] (serializeGList es ++ rest) = rest := by
  intro es
  induction es with
  | nil => intro rest _ _; simp [serializeGList]
  | cons e es ihe =>
    intro rest hwf hdep
    obtain ⟨htag, hwe, hrest⟩ := hwf
    have hde : e.depth < fuel := by
      simp only [GVal.depthList] at hdep; omega
    have hdes : GVal.depthList es < fuel := by
      simp only [GVal.depthList] at hdep; omega
    simp only [List.length_cons, serializeGList, List.append_assoc,
      Function.iterate_succ_apply]
    rw [← htag, IH e _ hwe hde, htag]
    exact ihe _ hrest hdes

/-- The central property of `gguf_skip_metadata_value`: on a stream that
starts with a well-formed serialized value of the declared tag, it consumes
exactly the value's bytes (given fuel above the array-nesting depth, which
bounds the C function's recursion). -/
theorem gguf_skip_metadata_value_exact :
    ∀ (fuel : Nat) (v : GVal) (rest : List Nat), v.wf → v.depth < fuel →
      gguf_skip_metadata_value fuel v.tagOf (serializeGVal v ++ rest) = rest := by
  intro fuel
  induction fuel with
  | zero => intro v rest _ hd; omega
  | succ fuel ih =>
    intro v rest hwf hd
    match v with
    | .fixedV t b =>
      obtain ⟨h13, h8, h9, hb⟩ := hwf
      exact skip_fixed _ t b rest h13 h8 h9 hb
    | .strV d =>
      exact skip_str _ d rest hwf
    | .arrV t es =>
      obtain ⟨ht, hlen, hels⟩ := hwf
      have hdepth : GVal.depthList es < fuel := by
        simp only [GVal.tagOf, GVal.depth] at hd ⊢; omega
      show gguf_skip_metadata_value (fuel + 1) 9 _ = rest
      simp only [serializeGVal, gguf_skip_metadata_value, reduceCtorEq, if_false,
        if_pos rfl, List.append_assoc]
      rw [List.take_left' (natToLE_length 4 t), List.drop_left' (natToLE_length 4 t),
        List.take_left' (natToLE_length 8 es.length),
        List.drop_left' (natToLE_length 8 es.length),
        leNat_natToLE 4 t ht, leNat_natToLE 8 es.length hlen,
        foldl_const_iterate]
      exact skip_list_aux fuel t ih es rest hels hdepth

/-! ## Claim theorems -/

/-- C1: the spec demands that for every declared type tag the model-load
metadata loop skip an unknown key's value by exactly its byte footprint,
recursing through arrays.  The repository's `gguf_skip_metadata_value` does
exactly that, but the inline skip of the load loop in
`siglip_load_model_with_progress` reads `sizes[9] = 0` bytes for an
array-typed value and never touches the element tag, the length or the
elements.  Evaluated at an unknown key declaring an array of two uint32
values: the value occupies 20 bytes, the loop's skip consumes 0 of them
(leaving the stream exactly where it was), while `gguf_skip_metadata_value`
consumes exactly 20 and exposes the following sentinel bytes. -/
theorem claim_C1_load_loop_array_skip :
    (serializeGVal (GVal.arrV 4 [GVal.fixedV 4 [1, 0, 0, 0], GVal.fixedV 4 [2, 0, 0, 0]])).length
      = 20 ∧
    siglip_metadata_loop_skip 9
        (serializeGVal (GVal.arrV 4 [GVal.fixedV 4 [1, 0, 0, 0], GVal.fixedV 4 [2, 0, 0, 0]])
          ++ [7, 7])
      = serializeGVal (GVal.arrV 4 [GVal.fixedV 4 [1, 0, 0, 0], GVal.fixedV 4 [2, 0, 0, 0]])
          ++ [7, 7] ∧
    gguf_skip_metadata_value 1 9
        (serializeGVal (GVal.arrV 4 [GVal.fixedV 4 [1, 0, 0, 0], GVal.fixedV 4 [2, 0, 0, 0]])
          ++ [7, 7])
      = [7, 7] := by
  refine ⟨by decide, by decide, by decide⟩

/-- A metadata entry under any key other than `siglip.num_patches` never
changes the resolved `num_patches` field. -/
theorem apply_metadata_num_patches_other (hp : SiglipHparams) (k : String) (v : MVal)
    (hk : k ≠ "siglip.num_patches") :
    (siglip_apply_metadata hp k v).num_patches = hp.num_patches := by
  unfold siglip_apply_metadata
  by_cases h1 : k = "general.architecture"
  · rw [if_pos h1]
  rw [if_neg h1]
  by_cases h2 : k = "general.name"
  · rw [if_pos h2]
  rw [if_neg h2]
  by_cases h3 : k = "siglip.hidden_size"
  · rw [if_pos h3]; cases v <;> rfl
  rw [if_neg h3]
  by_cases h4 : k = "siglip.num_attention_heads"
  · rw [if_pos h4]; cases v <;> rfl
  rw [if_neg h4]
  by_cases h5 : k = "siglip.num_hidden_layers"
  · rw [if_pos h5]; cases v <;> rfl
  rw [if_neg h5]
  by_cases h6 : k = "siglip.intermediate_size"
  · rw [if_pos h6]; cases v <;> rfl
  rw [if_neg h6]
  by_cases h7 : k = "siglip.image_size"
  · rw [if_pos h7]; cases v <;> rfl
  rw [if_neg h7]
  by_cases h8 : k = "siglip.patch_size"
  · rw [if_pos h8]; cases v <;> rfl
  rw [if_neg h8]
  rw [if_neg hk]
  by_cases h10 : k = "siglip.image_mean"
  · rw [if_pos h10]; cases v <;> rfl
  rw [if_neg h10]
  by_cases h11 : k = "siglip.image_std"
  · rw [if_pos h11]; cases v <;> rfl
  rw [if_neg h11]

/-- The resolution fold computes the last declared `num_patches`, starting
from an arbitrary current value. -/
theorem resolve_num_patches_aux :
    ∀ (kvs : List (String × MVal)) (hp : SiglipHparams),
      (kvs.foldl (fun hp kv => siglip_apply_metadata hp kv.1 kv.2) hp).num_patches
        = kvs.foldl (fun acc kv =>
            if kv.1 = "siglip.num_patches" then
              match kv.2 with
              | .mint z => toInt32 z
              | _ => acc
            else acc) hp.num_patches := by
  intro kvs
  induction kvs with
  | nil => intro hp; rfl
  | cons kv kvs ih =>
    intro hp
    obtain ⟨k, v⟩ := kv
    simp only [List.foldl_cons]
    rw [ih]
    by_cases hk : k = "siglip.num_patches"
    · subst hk
      cases v with
      | mint z =>
        rw [if_pos rfl,
          show (siglip_apply_metadata hp "siglip.num_patches" (MVal.mint z)).num_patches
            = toInt32 z from rfl]
      | mstr s =>
        rw [if_pos rfl,
          show (siglip_apply_metadata hp "siglip.num_patches" (MVal.mstr s)).num_patches
            = hp.num_patches from rfl]
      | marr l =>
        rw [if_pos rfl,
          show (siglip_apply_metadata hp "siglip.num_patches" (MVal.marr l)).num_patches
            = hp.num_patches from rfl]
    · rw [apply_metadata_num_patches_other hp k v hk, if_neg hk]

/-- C2, counterexample: an archive declaring `image_size = 224`,
`patch_size = 16` (so the derived grid is `(224/16)^2 = 196`) together with
a conflicting `num_patches = 999` resolves to `num_patches = 999`: the
metadata-declared value wins because `siglip_load_model_with_progress`
never recomputes `num_patches` after the metadata loop. -/
theorem claim_C2_counterexample :
    (siglip_resolve_metadata
        [("siglip.image_size", .mint 224), ("siglip.patch_size", .mint 16),
         ("siglip.num_patches", .mint 999)]).image_size = 224 ∧
    (siglip_resolve_metadata
        [("siglip.image_size", .mint 224), ("siglip.patch_size", .mint 16),
         ("siglip.num_patches", .mint 999)]).patch_size = 16 ∧
    (siglip_resolve_metadata
        [("siglip.image_size", .mint 224), ("siglip.patch_size", .mint 16),
         ("siglip.num_patches", .mint 999)]).num_patches ≠ (224 / 16) ^ 2 := by
  refine ⟨by decide, by decide, by decide⟩

/-- C2, amended: after hyperparameter resolution `num_patches` equals the
last metadata-declared `siglip.num_patches` integer value (cast to 32-bit),
or the default 196 when none is declared; the derived value
`(image_size / patch_size)^2` plays no part. -/
theorem claim_C2_amended_num_patches :
    ∀ kvs : List (String × MVal),
      (siglip_resolve_metadata kvs).num_patches = siglip_spec_num_patches kvs := by
  intro kvs
  unfold siglip_resolve_metadata siglip_spec_num_patches
  exact resolve_num_patches_aux kvs siglip_default_hparams

/-- C3: with a valid magic, model loading succeeds for every version value;
a version outside 2..3 is recorded only as a warning
(src/siglip/siglip_core.cpp:429-433).  The strict `gguf_validate_header`
in src/siglip/siglip_gguf.cpp would reject such versions, but no load path
calls it. -/
theorem claim_C3_version_warns_not_fatal (f : GGUFFile) (hm : f.magic = GGUF_MAGIC) :
    (siglip_load_model f).isSome = true ∧
      ((siglip_load_model f).map SiglipCtx.warned_version = some true ↔
        (f.version < 2 ∨ 3 < f.version)) := by
  constructor
  · simp [siglip_load_model, hm]
  · simp [siglip_load_model, hm]

/-- Witness for C3: a structured archive with valid magic and version 99
loads successfully, with the version warning raised. -/
theorem claim_C3_witness :
    (GGUFFile.mk GGUF_MAGIC 99 [] []).magic = GGUF_MAGIC ∧
      (siglip_load_model (GGUFFile.mk GGUF_MAGIC 99 [] [])).isSome = true ∧
      ((siglip_load_model (GGUFFile.mk GGUF_MAGIC 99 [] [])).map SiglipCtx.warned_version
          = some true ↔ (99 < 2 ∨ 3 < 99)) :=
  ⟨rfl, (claim_C3_version_warns_not_fatal (GGUFFile.mk GGUF_MAGIC 99 [] []) rfl).1,
    (claim_C3_version_warns_not_fatal (GGUFFile.mk GGUF_MAGIC 99 [] []) rfl).2⟩

/-- A block tensor whose parsed layer index fails the
`block_idx >= 0 && block_idx < num_hidden_layers` bounds check binds
nothing. -/
theorem bind_one_out_of_range (numLayers : Int) (st : SiglipTensors) (name : String)
    (t : Nat) (dot1 : Nat) (idx : Int)
    (hsw : siglipBlocksStart name = true)
    (hdot : findDotFrom name 14 = some dot1)
    (hidx : stoiOf (substrOf name 14 (dot1 - 14)) = some idx)
    (hout : idx < 0 ∨ numLayers ≤ idx) :
    siglip_bind_one numLayers st name t = st := by
  have h1 : name ≠ "siglip.patch_embed.weight" := by rintro rfl; exact absurd hsw (by decide)
  have h2 : name ≠ "siglip.patch_embed.bias" := by rintro rfl; exact absurd hsw (by decide)
  have h3 : name ≠ "siglip.pos_embed" := by rintro rfl; exact absurd hsw (by decide)
  have h4 : name ≠ "siglip.norm.weight" := by rintro rfl; exact absurd hsw (by decide)
  have h5 : name ≠ "siglip.norm.bias" := by rintro rfl; exact absurd hsw (by decide)
  have h6 : name ≠ "siglip.head.weight" := by rintro rfl; exact absurd hsw (by decide)
  have h7 : name ≠ "siglip.head.bias" := by rintro rfl; exact absurd hsw (by decide)
  unfold siglip_bind_one
  rw [if_neg h1, if_neg h2, if_neg h3, if_neg h4, if_neg h5, if_neg h6, if_neg h7]
  simp only [hsw, if_true, hdot, hidx]
  rw [if_neg (show ¬(0 ≤ idx ∧ idx < numLayers) by omega)]

/-- C9: a tensor named `siglip.blocks.<i>.<component>` whose parsed index
`i` lies outside `[0, num_hidden_layers)` is silently dropped by the tensor
binder — removing it from the descriptor list leaves the bound weight
structure unchanged — and a structured load containing it still succeeds. -/
theorem claim_C9_out_of_range_layer_dropped (numLayers : Int) (name : String) (t : Nat)
    (dot1 : Nat) (idx : Int) (pre post : List (String × Nat))
    (hsw : siglipBlocksStart name = true)
    (hdot : findDotFrom name 14 = some dot1)
    (hidx : stoiOf (substrOf name 14 (dot1 - 14)) = some idx)
    (hout : idx < 0 ∨ numLayers ≤ idx) :
    siglip_bind_tensors numLayers (pre ++ (name, t) :: post)
        = siglip_bind_tensors numLayers (pre ++ post) ∧
      ∀ (version : Nat) (kvs : List (String × MVal)),
        (siglip_load_model
            (GGUFFile.mk GGUF_MAGIC version kvs (pre ++ (name, t) :: post))).isSome = true := by
  constructor
  · unfold siglip_bind_tensors
    rw [List.foldl_append, List.foldl_cons,
      bind_one_out_of_range numLayers _ name t dot1 idx hsw hdot hidx hout,
      ← List.foldl_append]
  · intro version kvs
    simp [siglip_load_model]

/-- Witness for C9: with 12 hidden layers, the tensor
`siglip.blocks.99.attn.q.weight` (index 99, out of range) is dropped and
the load still succeeds. -/
theorem claim_C9_witness :
    siglipBlocksStart "siglip.blocks.99.attn.q.weight" = true ∧
      findDotFrom "siglip.blocks.99.attn.q.weight" 14 = some 16 ∧
      stoiOf (substrOf "siglip.blocks.99.attn.q.weight" 14 2) = some 99 ∧
      siglip_bind_tensors 12 [("siglip.pos_embed", 5), ("siglip.blocks.99.attn.q.weight", 7)]
        = siglip_bind_tensors 12 [("siglip.pos_embed", 5)] :=
  ⟨by decide, by decide, by decide,
    (claim_C9_out_of_range_layer_dropped 12 "siglip.blocks.99.attn.q.weight" 7 16 99
      [("siglip.pos_embed", 5)] [] (by decide) (by decide) (by decide) (by decide)).1⟩

/-- C5: the computed tensor-data start is a multiple of the 32-byte
alignment and never before the position reached after the last tensor
descriptor (both in `gguf_get_data_start` and in the identical inline
computation of `load_model_tensors`). -/
theorem claim_C5_data_start_aligned :
    ∀ pos : Nat, gguf_get_data_start pos 32 % 32 = 0 ∧ pos ≤ gguf_get_data_start pos 32 := by
  intro pos
  unfold gguf_get_data_start
  omega

/-- A fold of per-slot writes at stride `dim ≥ hidden`: slot `i` of the
final buffer holds exactly the `hidden` values written for image `i`. -/
theorem slots_foldl (hidden dim : Nat) (hd : hidden ≤ dim) (g : Nat → Nat → ℝ) :
    ∀ (m : Nat) (buf : Nat → ℝ) (i k : Nat), i < m → k < hidden →
      ((List.range m).foldl (fun b i' => writeSeq b (i' * dim) hidden (g i')) buf)
          (i * dim + k) = g i k := by
  intro m
  induction m with
  | zero => intro buf i k hi _; omega
  | succ m ih =>
    intro buf i k hi hk
    rw [List.range_succ, List.foldl_append, List.foldl_cons, List.foldl_nil]
    by_cases him : i = m
    · subst him
      unfold writeSeq
      rw [if_pos ⟨Nat.le_add_right _ _, by omega⟩, Nat.add_sub_cancel_left]
    · have h1 : i * dim + k < (i + 1) * dim := by
        rw [Nat.succ_mul]; omega
      have h2 : (i + 1) * dim ≤ m * dim := Nat.mul_le_mul_right dim (by omega)
      unfold writeSeq
      rw [if_neg (by omega)]
      exact ih buf i k (by omega) hk

/-- C4: batch encoding (siglip and evaclip variants) always yields one
embedding slot per image: a slot whose single-image encode failed is
zero-filled, a slot whose encode succeeded holds exactly the single-image
result, and no failure aborts the batch (the siglip batch still returns an
embedding, the evaclip batch still returns 0). -/
theorem claim_C4_batch_partial_failure :
    (∀ (hidden n : Nat) (enc : Nat → Option (Nat → ℝ)) (init : Nat → ℝ), 1 ≤ n →
      ∃ emb : SiglipEmbedding, siglip_encode_batch hidden enc n init = some emb ∧
        emb.size = hidden ∧ emb.batch_size = n ∧
        ∃ d, emb.data = some d ∧ ∀ i, i < n → ∀ k, k < hidden →
          d (i * hidden + k) = match enc i with | some e => e k | none => 0) ∧
    (∀ (hidden dim n : Nat) (enc : Nat → Option (Nat → ℝ)) (buf : Nat → ℝ),
      hidden ≤ dim →
      (evaclip_encode_batch hidden dim n enc buf).2 = 0 ∧
      ∀ i, i < n → ∀ k, k < hidden →
        (evaclip_encode_batch hidden dim n enc buf).1 (i * dim + k)
          = match enc i with | some e => e k | none => 0) := by
  constructor
  · intro hidden n enc init hn
    unfold siglip_encode_batch
    rw [if_neg (by omega)]
    refine ⟨_, rfl, rfl, rfl, _, rfl, ?_⟩
    intro i hi k hk
    have hfun : (fun buf i' =>
        match enc i' with
        | some e => writeSeq buf (i' * hidden) hidden e
        | none => writeSeq buf (i' * hidden) hidden (fun _ => 0))
        = fun (buf : Nat → ℝ) i' => writeSeq buf (i' * hidden) hidden
            (match enc i' with | some e => e | none => fun _ => 0) := by
      funext buf i'
      cases enc i' <;> rfl
    rw [hfun, slots_foldl hidden hidden le_rfl _ n init i k hi hk]
    cases enc i <;> rfl
  · intro hidden dim n enc buf hd
    refine ⟨rfl, ?_⟩
    intro i hi k hk
    unfold evaclip_encode_batch
    have hfun : (fun b i' =>
        match enc i' with
        | some e => writeSeq b (i' * dim) hidden e
        | none => writeSeq b (i' * dim) hidden (fun _ => 0))
        = fun (b : Nat → ℝ) i' => writeSeq b (i' * dim) hidden
            (match enc i' with | some e => e | none => fun _ => 0) := by
      funext b i'
      cases enc i' <;> rfl
    rw [hfun]
    show ((List.range n).foldl _ buf) (i * dim + k) = _
    rw [slots_foldl hidden dim hd _ n buf i k hi hk]
    cases enc i <;> rfl

/-- Witness for C4: a two-image batch (hidden size 2) whose second image
fails: the batch encode succeeds, slot 0 is the single-image embedding
`[1,2]`, slot 1 is all zeros. -/
theorem claim_C4_witness :
    (1 : Nat) ≤ 2 ∧
      (∃ emb : SiglipEmbedding, siglip_encode_batch 2 encWitness 2 initWitness = some emb ∧
        emb.size = 2 ∧ emb.batch_size = 2 ∧
        ∃ d, emb.data = some d ∧ ∀ i, i < 2 → ∀ k, k < 2 →
          d (i * 2 + k) = match encWitness i with | some e => e k | none => 0) ∧
      (2 : Nat) ≤ 3 ∧
      (evaclip_encode_batch 2 3 2 encWitness initWitness).2 = 0 :=
  ⟨by norm_num, claim_C4_batch_partial_failure.1 2 2 encWitness initWitness (by norm_num),
    by norm_num,
    (claim_C4_batch_partial_failure.2 2 3 2 encWitness initWitness (by norm_num)).1⟩

/-- C8: when the caller-supplied output buffer is smaller than the size the
requested output mode needs (`hidden_size` for CLS/MEAN,
`num_patches * hidden_size` for PATCHES in dinov2; `hidden_size` in
evaclip), the encode call returns the buffer-too-small error before any
computation, with the output buffer untouched.  (The evaclip entry checks
image emptiness first, so a nonempty image is assumed there.) -/
theorem claim_C8_buffer_checked_before_compute :
    (∀ (hp : Dinov2Hparams) (imageLen : Nat) (buf : Nat → ℝ) (maxDim : Nat)
        (mode : Dinov2OutputMode), maxDim < dinov2_required_size hp mode →
        dinov2_encode hp imageLen buf maxDim mode
          = ⟨buf, -1, some "Output-Buffer zu klein"⟩) ∧
    (∀ (hp : EvaclipHparams) (imageSize : Nat) (buf : Nat → ℝ) (dim : Nat),
        imageSize ≠ 0 → dim < hp.hidden_size →
        evaclip_encode_image hp imageSize buf dim
          = ⟨buf, -5, some "Output-Buffer zu klein"⟩) := by
  constructor
  · intro hp imageLen buf maxDim mode h
    unfold dinov2_encode
    rw [if_pos h]
  · intro hp imageSize buf dim h0 h5
    unfold evaclip_encode_image
    rw [if_neg h0, if_pos h5]

/-- Witness for C8: with hidden size 4 and a 3-element buffer, both encode
entry points report the buffer-too-small error and leave the buffer
untouched. -/
theorem claim_C8_witness :
    (3 : Nat) < dinov2_required_size ⟨4, 9, 224, 2⟩ Dinov2OutputMode.cls ∧
      dinov2_encode ⟨4, 9, 224, 2⟩ 12 initWitness 3 Dinov2OutputMode.cls
        = ⟨initWitness, -1, some "Output-Buffer zu klein"⟩ ∧
      (12 : Nat) ≠ 0 ∧ (3 : Nat) < (⟨4, 9, 224⟩ : EvaclipHparams).hidden_size ∧
      evaclip_encode_image ⟨4, 9, 224⟩ 12 initWitness 3
        = ⟨initWitness, -5, some "Output-Buffer zu klein"⟩ :=
  ⟨by norm_num [dinov2_required_size],
    claim_C8_buffer_checked_before_compute.1 ⟨4, 9, 224, 2⟩ 12 initWitness 3
      Dinov2OutputMode.cls (by norm_num [dinov2_required_size]),
    by norm_num,
    by norm_num,
    claim_C8_buffer_checked_before_compute.2 ⟨4, 9, 224⟩ 12 initWitness 3
      (by norm_num) (by norm_num)⟩

/-! ## Real-analysis helpers for the embedding utilities -/

theorem normSq_nonneg (n : Nat) (a : Nat → ℝ) : 0 ≤ normSq n a :=
  Finset.sum_nonneg fun i _ => mul_self_nonneg (a i)

theorem normSq_eq_sum_sq (n : Nat) (a : Nat → ℝ) :
    normSq n a = ∑ i ∈ Finset.range n, a i ^ 2 := by
  unfold normSq
  exact Finset.sum_congr rfl fun i _ => (sq (a i)).symm

theorem dotProd_sq_le (n : Nat) (a b : Nat → ℝ) :
    dotProd n a b ^ 2 ≤ normSq n a * normSq n b := by
  rw [normSq_eq_sum_sq, normSq_eq_sum_sq]
  exact Finset.sum_mul_sq_le_sq_mul_sq (Finset.range n) a b

theorem normSq_pos (n : Nat) (a : Nat → ℝ) (h : normSq n a ≠ 0) : 0 < normSq n a :=
  lt_of_le_of_ne (normSq_nonneg n a) (Ne.symm h)

/-- Squared norm of the first `n` entries after dividing them by `c`. -/
theorem normSq_div (n : Nat) (f : Nat → ℝ) (c : ℝ) :
    normSq n (fun i => if i < n then f i / c else f i) = normSq n f / (c * c) := by
  unfold normSq
  rw [Finset.sum_div]
  refine Finset.sum_congr rfl fun i hi => ?_
  simp only
  rw [if_pos (Finset.mem_range.mp hi)]
  exact div_mul_div_comm (f i) c (f i) c

/-- C6: cosine similarity (siglip raw version and the identical nomic
version) lies in [-1, 1] whenever both squared norms are nonzero, equals
exactly 1 on any vector of nonzero norm paired with itself (real-arithmetic
model of "approximately 1.0"), and returns exactly 0.0 — never NaN — when
either squared norm is exactly zero. -/
theorem claim_C6_cosine_similarity :
    (∀ (n : Nat) (a b : Nat → ℝ), normSq n a ≠ 0 → normSq n b ≠ 0 →
      -1 ≤ siglip_cosine_similarity_raw a b n ∧ siglip_cosine_similarity_raw a b n ≤ 1) ∧
    (∀ (n : Nat) (v : Nat → ℝ), normSq n v ≠ 0 → siglip_cosine_similarity_raw v v n = 1) ∧
    (∀ (n : Nat) (a b : Nat → ℝ), normSq n a = 0 ∨ normSq n b = 0 →
      siglip_cosine_similarity_raw a b n = 0) ∧
    (∀ (a b : Nat → ℝ) (n : Nat),
      nomic_cosine_similarity a b n = siglip_cosine_similarity_raw a b n) := by
  refine ⟨?_, ?_, ?_, fun a b n => rfl⟩
  · intro n a b ha hb
    unfold siglip_cosine_similarity_raw
    rw [if_neg (by tauto)]
    have hpa : 0 < normSq n a := normSq_pos n a ha
    have hpb : 0 < normSq n b := normSq_pos n b hb
    have hsa : 0 < Real.sqrt (normSq n a) := Real.sqrt_pos.mpr hpa
    have hsb : 0 < Real.sqrt (normSq n b) := Real.sqrt_pos.mpr hpb
    have hdenom : 0 < Real.sqrt (normSq n a) * Real.sqrt (normSq n b) := mul_pos hsa hsb
    have habs : |dotProd n a b| ≤ Real.sqrt (normSq n a) * Real.sqrt (normSq n b) := by
      have h1 := Real.sqrt_le_sqrt (dotProd_sq_le n a b)
      rw [Real.sqrt_sq_eq_abs, Real.sqrt_mul (le_of_lt hpa)] at h1
      exact h1
    have h2 : |dotProd n a b / (Real.sqrt (normSq n a) * Real.sqrt (normSq n b))| ≤ 1 := by
      rw [abs_div, abs_of_pos hdenom]
      exact (div_le_one hdenom).mpr habs
    exact abs_le.mp h2
  · intro n v hv
    unfold siglip_cosine_similarity_raw
    rw [if_neg (by tauto)]
    have hvv : dotProd n v v = normSq n v := rfl
    rw [hvv, Real.mul_self_sqrt (normSq_nonneg n v), div_self hv]
  · intro n a b h
    unfold siglip_cosine_similarity_raw
    rw [if_pos h]

/-- Witness for C6: the two standard basis vectors of ℝ² have nonzero
norms, their cosine similarity obeys the bounds, and the self-similarity of
the first is exactly 1. -/
theorem claim_C6_witness :
    normSq 2 vecE0 ≠ 0 ∧ normSq 2 vecE1 ≠ 0 ∧
      (-1 ≤ siglip_cosine_similarity_raw vecE0 vecE1 2 ∧
        siglip_cosine_similarity_raw vecE0 vecE1 2 ≤ 1) ∧
      siglip_cosine_similarity_raw vecE0 vecE0 2 = 1 := by
  have h0 : normSq 2 vecE0 = 1 := by
    simp [normSq, Finset.sum_range_succ, vecE0]
  have h1 : normSq 2 vecE1 = 1 := by
    simp [normSq, Finset.sum_range_succ, vecE1]
  have hne0 : normSq 2 vecE0 ≠ 0 := by rw [h0]; norm_num
  have hne1 : normSq 2 vecE1 ≠ 0 := by rw [h1]; norm_num
  exact ⟨hne0, hne1, claim_C6_cosine_similarity.1 2 vecE0 vecE1 hne0 hne1,
    claim_C6_cosine_similarity.2.1 2 vecE0 hne0⟩

/-- C7: L2 normalization on the all-zero vector returns the all-zero vector
unchanged (no division happens in the siglip variant, a zero numerator in
the dinov2/evaclip variant — no NaN/Inf in the real model); on a vector of
nonzero norm the siglip variant yields exactly unit squared norm, the
dinov2/evaclip variant (with its `1e-12` stabilizer) yields squared norm
`S/(S+eps)`, within `eps/S` of 1. -/
theorem claim_C7_normalize_zero_and_unit :
    (∀ (n : Nat) (f : Nat → ℝ), (∀ i, i < n → f i = 0) →
      (∀ i, siglip_normalize_raw n f i = f i) ∧
      (∀ i, i < n → dinov2_normalize_embedding n f i = 0)) ∧
    (∀ (n : Nat) (f : Nat → ℝ), normSq n f ≠ 0 →
      normSq n (siglip_normalize_raw n f) = 1) ∧
    (∀ (n : Nat) (f : Nat → ℝ), normSq n f ≠ 0 →
      normSq n (dinov2_normalize_embedding n f) = normSq n f / (normSq n f + eps12) ∧
      1 - eps12 / normSq n f ≤ normSq n (dinov2_normalize_embedding n f) ∧
      normSq n (dinov2_normalize_embedding n f) ≤ 1) := by
  have heps : (0 : ℝ) < eps12 := by unfold eps12; norm_num
  refine ⟨?_, ?_, ?_⟩
  · intro n f hf
    have hS : normSq n f = 0 :=
      Finset.sum_eq_zero fun i hi => by
        rw [hf i (Finset.mem_range.mp hi), mul_zero]
    constructor
    · intro i
      unfold siglip_normalize_raw
      rw [hS, Real.sqrt_zero, if_neg (lt_irrefl 0)]
    · intro i hi
      unfold dinov2_normalize_embedding
      rw [if_pos hi, hf i hi, zero_div]
  · intro n f hS
    have hpos : 0 < normSq n f := normSq_pos n f hS
    have hsq : 0 < Real.sqrt (normSq n f) := Real.sqrt_pos.mpr hpos
    unfold siglip_normalize_raw
    rw [if_pos hsq, normSq_div, Real.mul_self_sqrt (le_of_lt hpos), div_self hS]
  · intro n f hS
    have hpos : 0 < normSq n f := normSq_pos n f hS
    have hpe : 0 < normSq n f + eps12 := by linarith
    have hmain : normSq n (dinov2_normalize_embedding n f)
        = normSq n f / (normSq n f + eps12) := by
      unfold dinov2_normalize_embedding
      rw [normSq_div, Real.mul_self_sqrt (le_of_lt hpe)]
    refine ⟨hmain, ?_, ?_⟩
    · rw [hmain]
      have hsplit : normSq n f / (normSq n f + eps12)
          = 1 - eps12 / (normSq n f + eps12) := by
        field_simp
      have hmono : eps12 / (normSq n f + eps12) ≤ eps12 / normSq n f :=
        div_le_div_of_nonneg_left (le_of_lt heps) hpos (by linarith)
      rw [hsplit]
      linarith
    · rw [hmain]
      exact (div_le_one hpe).mpr (by linarith)

/-- Witness for C7: the all-zero vector of size 2 stays all-zero under both
normalizers, and the first basis vector (norm 1 ≠ 0) normalizes to unit
squared norm. -/
theorem claim_C7_witness :
    ((∀ i, i < 2 → (fun _ => (0 : ℝ)) i = 0) ∧
      (∀ i, siglip_normalize_raw 2 (fun _ => (0 : ℝ)) i = (fun _ => (0 : ℝ)) i) ∧
      (∀ i, i < 2 → dinov2_normalize_embedding 2 (fun _ => (0 : ℝ)) i = 0)) ∧
    (normSq 2 vecE0 ≠ 0 ∧ normSq 2 (siglip_normalize_raw 2 vecE0) = 1) := by
  have hzero : ∀ i, i < 2 → (fun _ => (0 : ℝ)) i = 0 := fun i _ => rfl
  have hne0 : normSq 2 vecE0 ≠ 0 := by
    have h0 : normSq 2 vecE0 = 1 := by
      simp [normSq, Finset.sum_range_succ, vecE0]
    rw [h0]; norm_num
  exact ⟨⟨hzero, (claim_C7_normalize_zero_and_unit.1 2 _ hzero).1,
      (claim_C7_normalize_zero_and_unit.1 2 _ hzero).2⟩,
    hne0, claim_C7_normalize_zero_and_unit.2.1 2 vecE0 hne0⟩

/-- C10, counterexample: `siglip_normalize` applied to a non-null embedding
whose data pointer is null leaves the `normalized` flag false — the flag is
not set for every non-null embedding, only when the data pointer is also
non-null. -/
theorem claim_C10_counterexample :
    (siglip_normalize (some embNullData)).map SiglipEmbedding.normalized = some false :=
  rfl

/-- C10, amended: for a non-null embedding with a non-null data pointer,
`siglip_normalize` runs `siglip_normalize_raw` over the single concatenated
buffer of `size * batch_size` elements (dividing every element by that one
whole-buffer norm) and sets the `normalized` flag; the whole buffer then
has unit squared norm whenever it is nonzero, while an individual per-image
embedding in general does not: for the two-image batch `[1,0,1,0]` the
whole buffer normalizes to squared norm 1 but the second image's slice has
squared norm 1/2. -/
theorem claim_C10_amended_whole_buffer_norm :
    (∀ (e : SiglipEmbedding) (f : Nat → ℝ), e.data = some f →
      siglip_normalize (some e)
        = some { e with data := some (siglip_normalize_raw (e.size * e.batch_size) f)
                        normalized := true }) ∧
    (∀ (e : SiglipEmbedding) (f : Nat → ℝ), e.data = some f →
      normSq (e.size * e.batch_size) f ≠ 0 →
      normSq (e.size * e.batch_size) (siglip_normalize_raw (e.size * e.batch_size) f) = 1) ∧
    ((siglip_normalize (some embBatch2)).map SiglipEmbedding.normalized = some true ∧
      normSq 4 (siglip_normalize_raw 4 vecOneZero) = 1 ∧
      normSq 2 (fun k => siglip_normalize_raw 4 vecOneZero (2 + k)) = 1 / 2) := by
  have hS : normSq 4 vecOneZero = 2 := by
    simp [normSq, Finset.sum_range_succ, vecOneZero]
    norm_num
  have hne : normSq 4 vecOneZero ≠ 0 := by rw [hS]; norm_num
  have hwhole : ∀ (e : SiglipEmbedding) (f : Nat → ℝ), e.data = some f →
      normSq (e.size * e.batch_size) f ≠ 0 →
      normSq (e.size * e.batch_size) (siglip_normalize_raw (e.size * e.batch_size) f) = 1 := by
    intro e f _ hnz
    have hpos : 0 < normSq (e.size * e.batch_size) f := normSq_pos _ f hnz
    have hsq : 0 < Real.sqrt (normSq (e.size * e.batch_size) f) := Real.sqrt_pos.mpr hpos
    unfold siglip_normalize_raw
    rw [if_pos hsq, normSq_div, Real.mul_self_sqrt (le_of_lt hpos), div_self hnz]
  refine ⟨?_, hwhole, ?_, ?_, ?_⟩
  · intro e f hdata
    obtain ⟨sz, bs, nf, d⟩ := e
    change d = some f at hdata
    subst hdata
    rfl
  · rfl
  · exact hwhole embBatch2 vecOneZero rfl hne
  · have hsq2 : 0 < Real.sqrt (normSq 4 vecOneZero) := by
      rw [hS]
      exact Real.sqrt_pos.mpr (by norm_num)
    unfold siglip_normalize_raw
    rw [if_pos hsq2, hS]
    unfold normSq
    rw [Finset.sum_range_succ, Finset.sum_range_succ, Finset.sum_range_zero]
    norm_num [vecOneZero]
    rw [← mul_inv, Real.mul_self_sqrt (by norm_num : (0:ℝ) ≤ 2)]
    norm_num

/-- Witness for the amended C10: the two-image batch embedding has a
non-null data pointer, and normalizing it runs the raw normalizer over the
whole 4-element buffer and sets the flag. -/
theorem claim_C10_witness :
    embBatch2.data = some vecOneZero ∧
      siglip_normalize (some embBatch2)
        = some { embBatch2 with
                 data := some (siglip_normalize_raw (embBatch2.size * embBatch2.batch_size)
                   vecOneZero)
                 normalized := true } :=
  ⟨rfl, claim_C10_amended_whole_buffer_norm.1 embBatch2 vecOneZero rfl⟩

end Spec2Proof
